import Mathlib

/-!
Verification development for the golf-course data pipeline.

The Lean definitions below are a shallow embedding of the repository's
Python modules:

* `src/geocoding_utils.py` — `extract_postcode`, `build_clean_address`,
  `calculate_confidence`;
* `src/models/model.py` — the cross-field postcode rule
  `check_postcode_by_country` (the UK and France regexes);
* `src/pipeline/data_pipeline.py` — the record cleaner
  `process_golf_courses`;
* `src/pipeline/data_validation.py` — `validate_golf_courses`, with the
  pydantic row validation abstracted as a parameter (pydantic is an
  external library; the repository's code is the per-row error
  collection loop);
* `src/pipeline/geocoding.py` — `enrich_golf_course_addresses`, with the
  Google Maps client abstracted as a per-row oracle giving each call's
  response or raised error, and the checkpoint file modelled as the list
  of snapshots written to it.

Python `None`/`NaN` cells are modelled as `Option.none`; Python string
truthiness (`if s:`) is `s ≠ ""` on present strings; the `in` operator on
strings is `strContains`.  Numeric cells (latitude/longitude) are only
ever copied, never computed with, so they are modelled as integers.
-/

namespace GolfSpec

/-! ### Python string semantics -/

/-- Does `hay` start with `needle` (on character lists)? -/
def listStartsWith : List Char → List Char → Bool
  | _, [] => true
  | [], _ :: _ => false
  | h :: hs, n :: ns => h == n && listStartsWith hs ns

/-- Does the character list `hay` contain `needle` as a contiguous
subsequence?  Mirrors Python's `needle in hay`: the empty needle is
contained in everything. -/
def listContainsSeq : List Char → List Char → Bool
  | [], ns => ns.isEmpty
  | h :: t, ns => listStartsWith (h :: t) ns || listContainsSeq t ns

/-- Python's `needle in hay` on strings. -/
def strContains (hay needle : String) : Bool :=
  listContainsSeq hay.toList needle.toList

/-- Python's `str.lower()`, character by character. -/
def pyLower (s : String) : String :=
  ⟨s.data.map Char.toLower⟩

/-- Python truthiness of an optional string (`None` and `""` are falsy). -/
def truthyS : Option String → Bool
  | none => false
  | some s => s != ""

/-! ### geocoding_utils.py — address parsing helpers -/

/-- One entry of the Google `address_components` list: a text value and
its categorical tags (`long_name` and `types` in the source). -/
structure AddrComp where
  long_name : String
  types : List String
deriving DecidableEq, Repr

/-- Membership test `tag in component['types']` (the source builds a
`set`, membership is unchanged). -/
def compHasType (c : AddrComp) (t : String) : Bool :=
  c.types.contains t

/-- The exclusion test of `build_clean_address`:
`set(component['types']).intersection({'postal_code', 'country',
'postal_code_suffix'})` is non-empty. -/
def excludedComp (c : AddrComp) : Bool :=
  c.types.any fun t =>
    t == "postal_code" || t == "country" || t == "postal_code_suffix"

/-- `extract_postcode` from `src/geocoding_utils.py`: the loop overwrites
`postcode_main` at each component tagged `postal_code`, and (elif)
`postcode_suffix` at each component tagged `postal_code_suffix`. -/
def extractPostcodeState : List AddrComp → String × String → String × String
  | [], acc => acc
  | c :: cs, (m, suf) =>
    if compHasType c "postal_code" then
      extractPostcodeState cs (c.long_name, suf)
    else if compHasType c "postal_code_suffix" then
      extractPostcodeState cs (m, c.long_name)
    else
      extractPostcodeState cs (m, suf)

/-- `extract_postcode`: returns main and suffix joined by one space when
both are non-empty, otherwise `main or suffix or None`. -/
def extract_postcode (components : List AddrComp) : Option String :=
  let p := extractPostcodeState components ("", "")
  if p.1 != "" && p.2 != "" then some (p.1 ++ " " ++ p.2)
  else if p.1 != "" then some p.1
  else if p.2 != "" then some p.2
  else none

/-- Accumulator of `build_clean_address`'s sorting loop: the
`street_number` and `route` variables and the `other_parts` list. -/
structure SortedParts where
  street_number : String
  route : String
  other_parts : List String
deriving DecidableEq, Repr

/-- One iteration of `build_clean_address`'s `for component in
components` loop: excluded components are skipped; a `street_number`
tag assigns (overwrites) `street_number`; elif a `route` tag assigns
`route`; else the text is appended to `other_parts`. -/
def sortStep (acc : SortedParts) (c : AddrComp) : SortedParts :=
  if excludedComp c then acc
  else if compHasType c "street_number" then
    { acc with street_number := c.long_name }
  else if compHasType c "route" then
    { acc with route := c.long_name }
  else
    { acc with other_parts := acc.other_parts ++ [c.long_name] }

/-- The sorting loop of `build_clean_address`, starting from empty
strings and an empty list. -/
def sortComponents (components : List AddrComp) : SortedParts :=
  components.foldl sortStep ⟨"", "", []⟩

/-- The street block of `build_clean_address`: number and route joined
with a space when the number holds a digit, with a comma otherwise;
`street_number or route` when one of the two is empty. -/
def streetBlock (p : SortedParts) : String :=
  if p.street_number != "" && p.route != "" then
    if p.street_number.toList.any Char.isDigit then
      p.street_number ++ " " ++ p.route
    else
      p.street_number ++ ", " ++ p.route
  else if p.street_number != "" then p.street_number
  else p.route

/-- The list `[street_block] + other_parts` with empty strings filtered
out, as `build_clean_address` builds it before joining. -/
def addressParts (components : List AddrComp) : List String :=
  let p := sortComponents components
  (streetBlock p :: p.other_parts).filter (fun part => part != "")

/-- `build_clean_address` from `src/geocoding_utils.py`. -/
def build_clean_address (components : List AddrComp) : String :=
  String.intercalate ", " (addressParts components)

/-- The texts of the non-excluded components tagged `street_number`, in
input order (characterizes the loop's successive assignments). -/
def streetNumberTexts (components : List AddrComp) : List String :=
  (components.filter fun c =>
    !excludedComp c && compHasType c "street_number").map AddrComp.long_name

/-- The texts of the non-excluded components the loop assigns to
`route`: tagged `route` but not `street_number` (the elif). -/
def routeTexts (components : List AddrComp) : List String :=
  (components.filter fun c =>
    !excludedComp c && !compHasType c "street_number" &&
      compHasType c "route").map AddrComp.long_name

/-- The texts appended to `other_parts`, in input order. -/
def otherTexts (components : List AddrComp) : List String :=
  (components.filter fun c =>
    !excludedComp c && !compHasType c "street_number" &&
      !compHasType c "route").map AddrComp.long_name

/-- The texts of all non-excluded components. -/
def nonExcludedTexts (components : List AddrComp) : List String :=
  (components.filter fun c => !excludedComp c).map AddrComp.long_name

/-- The fields of a Places result that `calculate_confidence` reads
(`result.get('types', [])`, `result.get('name', '')`,
`result.get('partial_match', False)`); a missing key is the default. -/
structure PlaceResult where
  types : List String
  name : String
  partial_match : Bool
deriving DecidableEq, Repr

/-- `calculate_confidence` from `src/geocoding_utils.py`.  A `None`
`target_types` is already replaced by `[]` (`target_types or []`). -/
def calculate_confidence (result : PlaceResult) (search_query : String)
    (target_types : List String) (keyword : String) : String :=
  let types := result.types
  let found_name := pyLower result.name
  let sq := pyLower search_query
  let kw := pyLower keyword
  let type_match := target_types.any fun t => types.contains t
  let keyword_match :=
    if kw != "" then strContains found_name kw || strContains sq kw
    else false
  let is_activity_related := type_match || keyword_match
  if is_activity_related && !result.partial_match then "High"
  else if types.contains "establishment" || types.contains "point_of_interest" then
    "Medium"
  else "Low"

/-- Stated from the claim's words, for comparison with the source
function: the High condition — the result's category tags intersect the
caller-supplied target categories, or a caller-supplied (non-empty)
keyword appears, case-insensitively, in the result's name or in the
original search text — and the result is not flagged as a partial
match. -/
def specHighCond (r : PlaceResult) (q : String)
    (ts : List String) (kw : String) : Prop :=
  ((∃ t ∈ ts, t ∈ r.types) ∨
    (kw ≠ "" ∧ (strContains (pyLower r.name) (pyLower kw) = true ∨
      strContains (pyLower q) (pyLower kw) = true))) ∧
  r.partial_match = false

/-- Stated from the claim's words: the tags include `establishment` or
`point_of_interest`. -/
def specGenericTag (r : PlaceResult) : Prop :=
  "establishment" ∈ r.types ∨ "point_of_interest" ∈ r.types

/-! ### models/model.py — the postcode-by-country rule

`UK_POSTCODE_REGEX = "^[A-Z]{1,2}[0-9][A-Z0-9]? ?[0-9][A-Z]{2}$"` and
`FR_POSTCODE_REGEX = "^\d{5}$"`, checked with `re.match` (anchored on
both sides).  The anchored regex with its three optional/variable parts
matches a string exactly when one of the eight concrete shapes below
matches it character for character. -/

/-- Character class `[A-Z]`. -/
def ucChar (c : Char) : Bool := 'A' ≤ c && c ≤ 'Z'

/-- Character class `[0-9]`. -/
def dgChar (c : Char) : Bool := '0' ≤ c && c ≤ '9'

/-- Character class `[A-Z0-9]`. -/
def ucdgChar (c : Char) : Bool := ucChar c || dgChar c

/-- The literal space of the pattern. -/
def spChar (c : Char) : Bool := c == ' '

/-- A string matches a fixed shape when it has the shape's length and
every character is in its class. -/
def shapeMatch : List (Char → Bool) → List Char → Bool
  | [], [] => true
  | p :: ps, c :: cs => p c && shapeMatch ps cs
  | _, _ => false

/-- The eight expansions of `[A-Z]{1,2}[0-9][A-Z0-9]? ?[0-9][A-Z]{2}`:
one or two leading letters × optional alphanumeric × optional space. -/
def ukShapes : List (List (Char → Bool)) :=
  [ [ucChar, dgChar, dgChar, ucChar, ucChar],
    [ucChar, ucChar, dgChar, dgChar, ucChar, ucChar],
    [ucChar, dgChar, ucdgChar, dgChar, ucChar, ucChar],
    [ucChar, ucChar, dgChar, ucdgChar, dgChar, ucChar, ucChar],
    [ucChar, dgChar, spChar, dgChar, ucChar, ucChar],
    [ucChar, ucChar, dgChar, spChar, dgChar, ucChar, ucChar],
    [ucChar, dgChar, ucdgChar, spChar, dgChar, ucChar, ucChar],
    [ucChar, ucChar, dgChar, ucdgChar, spChar, dgChar, ucChar, ucChar] ]

/-- Full match of `UK_POSTCODE_REGEX`. -/
def ukPostcodeMatch (s : String) : Bool :=
  ukShapes.any fun sh => shapeMatch sh s.toList

/-- Full match of `FR_POSTCODE_REGEX` (`^\d{5}$`). -/
def frPostcodeMatch (s : String) : Bool :=
  s.toList.length == 5 && s.toList.all dgChar

/-- The model validator `check_postcode_by_country` of
`src/models/model.py` as an acceptance test: `true` when it raises no
`ValueError`.  Only `GBR` and `FRA` are checked; any other country code
passes through unvalidated. -/
def check_postcode_by_country (country_code post_code : String) : Bool :=
  if country_code == "GBR" then ukPostcodeMatch post_code
  else if country_code == "FRA" then frPostcodeMatch post_code
  else true

/-! ### pipeline/data_pipeline.py — the record cleaner

`process_golf_courses(df, col_name)` drops rows whose identifying cell
is NaN or whitespace-only, then drops duplicate identifying values
keeping the first occurrence.  A row is a cell for the identifying
column (`none` = NaN, the cell value of type `V` otherwise) plus the
rest of the row (an arbitrary payload `α`); `strOf` is `astype(str)`
and `String.trim` is `.str.strip()`. -/

/-- One dataset row for the cleaner: identifying cell plus payload. -/
structure CRow (V : Type) (α : Type) where
  name : Option V
  rest : α
deriving DecidableEq, Repr

/-- The row-filter stage: `dropna` then `astype(str).str.strip() != ""`. -/
def keepRow {V α : Type} (strOf : V → String) (r : CRow V α) : Bool :=
  match r.name with
  | none => false
  | some v => (strOf v).trim != ""

/-- `drop_duplicates(subset=[col_name], keep='first')`: keep a row when
its identifying cell value was not seen before. -/
def dropDuplicates {V α : Type} [DecidableEq V]
    (seen : List (Option V)) : List (CRow V α) → List (CRow V α)
  | [] => []
  | r :: rs =>
    if r.name ∈ seen then dropDuplicates seen rs
    else r :: dropDuplicates (r.name :: seen) rs

/-- `process_golf_courses` from `src/pipeline/data_pipeline.py` (the
console summary is a side effect with no bearing on the returned
data). -/
def process_golf_courses {V α : Type} [DecidableEq V]
    (strOf : V → String) (df : List (CRow V α)) : List (CRow V α) :=
  dropDuplicates [] (df.filter (keepRow strOf))

/-! ### pipeline/data_validation.py — the schema validator

`validate_golf_courses` builds a `GolfCourse` per row; pydantic's
instantiation is the external collaborator, abstracted as `validator`
returning either the normalized record or the list of field errors
(each with the offending input value and a message, as
`e.errors()` yields them; pydantic reports at least one error).  The
embedded code is the repository's own loop over `e.errors()`. -/

/-- One entry of pydantic's `e.errors()`: the offending `input` rendered
as text, and the message. -/
structure FieldError where
  input : String
  msg : String
deriving DecidableEq, Repr

/-- A raw dataset row as `row.to_dict()` hands it over: column/value
pairs. -/
abbrev VRow : Type := List (String × String)

/-- One record appended to the `errors` list: the original row plus the
`total_errors` and `error_details` columns. -/
structure ErrorEntry where
  original : VRow
  total_errors : Nat
  error_details : String
deriving DecidableEq

/-- The `for i, error in enumerate(e.errors(), 1)` loop of
`validate_golf_courses`: each iteration appends the numbered
`"i) input: msg"` line to `output_errors`, joins the lines collected so
far with `".\n"`, and appends a whole error row to `errors` — so each
iteration contributes one entry, the last one holding the full join. -/
def errorLoop (orig : VRow) (total : Nat) :
    Nat → List String → List FieldError → List ErrorEntry
  | _, _, [] => []
  | i, acc, e :: rest =>
    let acc1 := acc ++ [toString i ++ ") " ++ e.input ++ ": " ++ e.msg]
    let details := String.intercalate ".\n" acc1
    ⟨orig, total, details⟩ :: errorLoop orig total (i + 1) acc1 rest

/-- `validate_golf_courses` from `src/pipeline/data_validation.py`:
per row, a successful construction appends the normalized record to the
valid list, a failing one runs the error loop above.  Row order is
preserved in both outputs. -/
def validate_golf_courses {β : Type}
    (validator : VRow → Except (List FieldError) β) :
    List VRow → List β × List ErrorEntry
  | [] => ([], [])
  | r :: rs =>
    let rest := validate_golf_courses validator rs
    match validator r with
    | .ok b => (b :: rest.1, rest.2)
    | .error errs => (rest.1, errorLoop r errs.length 1 [] errs ++ rest.2)

/-! ### pipeline/geocoding.py — the enrichment orchestrator

`enrich_golf_course_addresses(df, api_key, throttle_threshold,
checkpoint_path)` is embedded over an abstract lookup service: per
processed row the oracle gives the `find_place` response (or the
`ApiError`/`TransportError` it raises) and the `place` (details)
response likewise.  The checkpoint file is modelled as the ordered list
of snapshots written to it; the throttle only sleeps and touches no
state, so it is not modelled.  A Python exception other than
`ApiError`/`TransportError` (here: the `KeyError`s of the unguarded
`['location']` and `['geometry']` subscripts) is the `uncaught`
outcome and aborts the function without the final write. -/

/-- Which caught exception class was raised. -/
inductive ErrKind
  | api
  | transport
deriving DecidableEq, Repr

/-- A caught lookup error: its class and its `str(e)` text. -/
structure CaughtErr where
  kind : ErrKind
  msg : String
deriving DecidableEq, Repr

/-- An exception the `except (ApiError, TransportError)` clause does not
catch. -/
inductive PyExn
  | keyError (key : String)
deriving DecidableEq, Repr

/-- `geometry.location`: the lat/lng pair.  The values are only copied
into the dataset, never computed with. -/
structure Location where
  lat : Int
  lng : Int
deriving DecidableEq, Repr

/-- The geometry of a find-place candidate: `location` and
`location_type` are each read with guarded/`.get` access. -/
structure CandGeometry where
  location : Option Location
  location_type : Option String
deriving DecidableEq, Repr

/-- One candidate of the find-place response. -/
structure Candidate where
  place_id : Option String
  formatted_address : Option String
  geometry : Option CandGeometry
deriving DecidableEq, Repr

/-- The find-place response: `status` and `candidates`. -/
structure FindResult where
  status : String
  candidates : List Candidate
deriving DecidableEq, Repr

/-- The geometry of a details result: only `location_type` is ever
read or written. -/
structure DetailsGeometry where
  location_type : Option String
deriving DecidableEq, Repr

/-- The `result` object of a details response, with the fields the code
reads: `address_components` (default `[]`), `geometry` (subscripted, so
presence matters), and the `name`/`types`/`partial_match` fields
`calculate_confidence` reads with defaults. -/
structure DetailsResult where
  address_components : List AddrComp
  geometry : Option DetailsGeometry
  name : String
  types : List String
  partial_match : Bool
deriving DecidableEq, Repr

/-- The details result `{}` that `details.get('result', {})` yields when
the key is missing. -/
def emptyDetailsResult : DetailsResult :=
  ⟨[], none, "", [], false⟩

/-- The view of a details result that `calculate_confidence` reads. -/
def DetailsResult.place (r : DetailsResult) : PlaceResult :=
  ⟨r.types, r.name, r.partial_match⟩

/-- The details response: `status` and optional `result`. -/
structure DetailsResponse where
  status : String
  result : Option DetailsResult
deriving DecidableEq, Repr

deriving instance DecidableEq for Except

/-- The lookup oracle for one processed row: what `find_place` and
`place` return there, or which caught-class error they raise. -/
structure RowApi where
  find : Except CaughtErr FindResult
  details : Except CaughtErr DetailsResponse
deriving DecidableEq, Repr

/-- Lines 139–140 of `src/pipeline/geocoding.py`: when a location type
was captured in step 1 (`if found_loc_type:`), execute
`full_result['geometry']['location_type'] = found_loc_type` — a
`KeyError` when the details result has no geometry, an unconditional
assignment otherwise. -/
def injectLocType (full : DetailsResult) (found_loc_type : Option String) :
    Except PyExn DetailsResult :=
  if truthyS found_loc_type then
    match full.geometry with
    | none => .error (.keyError "geometry")
    | some g =>
      .ok { full with geometry := some { g with location_type := found_loc_type } }
  else
    .ok full

/-- One working row of the dataset being enriched: the cells the loop
reads and writes, plus the untouched remainder of the row. -/
structure Row where
  courseName : Option String
  address : Option String
  latitude : Option Int
  longitude : Option Int
  postCode : Option String
  confidence : Option String
  rest : List String
deriving DecidableEq, Repr

/-- Two rows agree on every column the enrichment loop never writes
(everything but Address, Latitude, Longitude, Post Code, Confidence). -/
def frameEq (r s : Row) : Prop :=
  r.courseName = s.courseName ∧ r.rest = s.rest

/-- The mask `df['Address'].isna() | (df['Address'] == '')`. -/
def needsEnrichment (r : Row) : Bool :=
  match r.address with
  | none => true
  | some s => s == ""

/-- The skip `if not course_name: continue` (a missing `'Golf Course'`
cell or an empty string is falsy). -/
def skipRow (r : Row) : Bool :=
  match r.courseName with
  | none => true
  | some s => s == ""

/-- How one row's try block ends. -/
inductive RowOutcome
  | done (r : Row)
  | caught (r : Row) (e : CaughtErr)
  | uncaught (e : PyExn)
deriving DecidableEq, Repr

/-- Step 2 of the per-row work (`if place_id:` body): the details call,
postcode extraction, clean-address overwrite, location-type injection
and confidence computation.  `row2` carries the writes step 1 already
made. -/
def detailsStep (row2 : Row) (course_name : String)
    (found_loc_type : Option String) (api : RowApi) : RowOutcome :=
  match api.details with
  | .error e => .caught row2 e
  | .ok d =>
    if d.status == "OK" then
      let full := d.result.getD emptyDetailsResult
      let comps := full.address_components
      let row3 := { row2 with
        postCode := extract_postcode comps,
        address := some (build_clean_address comps) }
      match injectLocType full found_loc_type with
      | .error e => .uncaught e
      | .ok full2 =>
        let conf := calculate_confidence full2.place course_name ["golf_course"] "golf"
        .done { row3 with confidence := some conf }
    else
      .done row2

/-- The try block of one loop iteration of
`enrich_golf_course_addresses`: find place, write address and
geometry from the first candidate, then the details step. -/
def rowStep (row : Row) (course_name : String) (api : RowApi) : RowOutcome :=
  match api.find with
  | .error e => .caught row e
  | .ok fr =>
    match fr.candidates, fr.status == "OK" with
    | c :: _, true =>
      let found_loc_type :=
        match c.geometry with
        | some g => g.location_type
        | none => none
      let row1 := { row with address := c.formatted_address }
      match c.geometry with
      | some g =>
        match g.location with
        | none => .uncaught (.keyError "location")
        | some loc =>
          let row2 := { row1 with latitude := some loc.lat, longitude := some loc.lng }
          if truthyS c.place_id then detailsStep row2 course_name found_loc_type api
          else .done row2
      | none =>
        if truthyS c.place_id then detailsStep row1 course_name found_loc_type api
        else .done row1
    | _, _ => .done row

/-- The loop's result: the working subset after the loop, the checkpoint
snapshots written during it, and the uncaught exception if one ended
it. -/
structure LoopResult where
  df : List Row
  writes : List (List Row)
  exn : Option PyExn
deriving DecidableEq, Repr

/-- The `for count, (index, row) in enumerate(df.iterrows(), 1)` loop:
`prev` holds the processed prefix reversed, `writes` the checkpoint
snapshots so far reversed, `count` the enumeration counter before this
row.  A skipped row advances the counter without API work or
checkpoint; a caught error whose text contains `'API key'` breaks; any
other caught error continues; every tenth completed count snapshots the
whole working subset. -/
def loopAux (api : Nat → RowApi) :
    Nat → List Row → List (List Row) → List Row → LoopResult
  | _, prev, writes, [] => ⟨prev.reverse, writes.reverse, none⟩
  | count, prev, writes, row :: rest =>
    if skipRow row then loopAux api (count + 1) (row :: prev) writes rest
    else
      match rowStep row (row.courseName.getD "") (api count) with
      | .uncaught e => ⟨[], writes.reverse, some e⟩
      | .caught r e =>
        if strContains e.msg "API key" then
          ⟨prev.reverse ++ r :: rest, writes.reverse, none⟩
        else
          loopAux api (count + 1) (r :: prev) writes rest
      | .done r =>
        let writes1 :=
          if (count + 1) % 10 == 0 then (prev.reverse ++ r :: rest) :: writes
          else writes
        loopAux api (count + 1) (r :: prev) writes1 rest

/-- `enrich_golf_course_addresses` from `src/pipeline/geocoding.py`:
returns the checkpoint writes in order, and either the returned
dataset or the uncaught exception.  With no row to process the input
comes back untouched and nothing is written; otherwise the function
works on `df[mask].copy()` — only the masked rows — and after the loop
(also after a credential break) writes the subset once more and returns
it.  An uncaught exception aborts without that final write. -/
def enrich_golf_course_addresses (df : List Row) (api : Nat → RowApi) :
    List (List Row) × Except PyExn (List Row) :=
  let sub := df.filter needsEnrichment
  if sub.length == 0 then ([], .ok df)
  else
    let res := loopAux api 0 [] [] sub
    match res.exn with
    | none => (res.writes ++ [res.df], .ok res.df)
    | some e => (res.writes, .error e)

/-! ### Concrete fixtures for the closed theorems -/

/-- A row whose address is already filled: not enrichable. -/
def rowA : Row := ⟨some "Alpha GC", some "1 Main Street", none, none, none, none, ["x"]⟩

/-- An enrichable row (empty address). -/
def rowB : Row := ⟨some "Beta GC", some "", none, none, none, none, ["y"]⟩

/-- An enrichable row (empty address). -/
def rowC : Row := ⟨some "Gamma GC", some "", none, none, none, none, []⟩

/-- An enrichable row (missing address cell). -/
def rowD : Row := ⟨some "Delta GC", none, none, none, none, none, []⟩

/-- An oracle whose find-place call always comes back without
candidates: the loop body writes nothing. -/
def apiZero : Nat → RowApi :=
  fun _ => ⟨.ok ⟨"ZERO_RESULTS", []⟩, .ok ⟨"ZERO_RESULTS", none⟩⟩

/-- A complete find-place candidate. -/
def candOk : Candidate :=
  ⟨some "pid1", some "Formatted Addr", some ⟨some ⟨51, 0⟩, some "ROOFTOP"⟩⟩

/-- A details result with address components and no location type of
its own. -/
def dresOk : DetailsResult :=
  ⟨[⟨"10", ["street_number"]⟩, ⟨"Downing St", ["route"]⟩,
    ⟨"SW1A", ["postal_code"]⟩, ⟨"2AA", ["postal_code_suffix"]⟩],
   some ⟨none⟩, "Beta Golf Club", ["golf_course"], false⟩

/-- An oracle that succeeds and enriches every processed row. -/
def apiOk : Nat → RowApi :=
  fun _ => ⟨.ok ⟨"OK", [candOk]⟩, .ok ⟨"OK", some dresOk⟩⟩

/-- An oracle raising a transport error whose text contains `'API key'`
on the first processed row, then behaving like `apiOk`. -/
def apiCredT : Nat → RowApi :=
  fun i =>
    if i == 0 then ⟨.error ⟨.transport, "timeout validating API key"⟩, .ok ⟨"X", none⟩⟩
    else apiOk i

/-- A details result with no geometry key at all. -/
def dresNoGeom : DetailsResult := ⟨[], none, "N", [], false⟩

/-- An oracle whose details response is `OK` but carries no geometry,
while the find-place candidate supplies a location type. -/
def apiNoGeom : Nat → RowApi :=
  fun _ => ⟨.ok ⟨"OK", [candOk]⟩, .ok ⟨"OK", some dresNoGeom⟩⟩

/-- A row validator (the pydantic collaborator) that rejects every row
with the same two field errors. -/
def valTwoErrors : VRow → Except (List FieldError) Unit :=
  fun _ => .error [⟨"abc", "bad type"⟩, ⟨"-5", "out of range"⟩]

/-- A one-column raw row. -/
def vrowLinks : VRow := [("Golf Course Name", "Links")]

/-! ## Theorems -/

/-! ### Helper lemmas -/

/-- Lowercasing gives the empty string only on the empty string. -/
theorem pyLower_eq_empty_iff (s : String) : pyLower s = "" ↔ s = "" := by
  cases s with
  | mk d =>
    constructor
    · intro h
      have hd : d.map Char.toLower = ([] : List Char) := congrArg String.data h
      have hnil : d = [] := List.map_eq_nil_iff.mp hd
      subst hnil
      rfl
    · intro h
      rw [h]
      rfl

/-- Boolean string disequality to propositional, and back. -/
theorem bne_true_ne {a b : String} (h : (a != b) = true) : a ≠ b := by
  simpa using h

/-- Propositional string disequality to boolean. -/
theorem ne_bne_true {a b : String} (h : a ≠ b) : (a != b) = true := by
  simpa using h

/-- The default-carrying last element of a non-empty list is a member. -/
theorem getLastD_mem {l : List String} (d : String) (h : l ≠ []) :
    l.getLastD d ∈ l := by
  cases l with
  | nil => exact absurd rfl h
  | cons b t =>
    refine List.mem_of_mem_getLast? (l := b :: t) ?_
    simp [List.getLastD_eq_getLast?, List.getLast?_cons]

/-! ### C6 — the postcode-by-country rule -/

/-- C6: `check_postcode_by_country` accepts a GBR postcode exactly when
the UK pattern matches — both the spaced `"TN16 1QN"` and the unspaced
`"TN161QN"` match, the space being optional; it accepts an FRA postcode
exactly when the string is exactly five digits (`"75008"` passes,
`"7500"` fails); and it applies no check for any other country code. -/
theorem c6_postcode_by_country :
    check_postcode_by_country "GBR" "TN16 1QN" = true ∧
    check_postcode_by_country "GBR" "TN161QN" = true ∧
    check_postcode_by_country "FRA" "75008" = true ∧
    check_postcode_by_country "FRA" "7500" = false ∧
    (∀ pc, check_postcode_by_country "GBR" pc = ukPostcodeMatch pc) ∧
    (∀ pc, check_postcode_by_country "FRA" pc = true ↔
      (pc.data.length = 5 ∧ ∀ c ∈ pc.data, '0' ≤ c ∧ c ≤ '9')) ∧
    (∀ cc pc, cc ≠ "GBR" → cc ≠ "FRA" → check_postcode_by_country cc pc = true) := by
  refine ⟨by decide, by decide, by decide, by decide, ?_, ?_, ?_⟩
  · intro pc
    rfl
  · intro pc
    show frPostcodeMatch pc = true ↔ _
    simp [frPostcodeMatch, dgChar, List.all_eq_true, String.toList]
  · intro cc pc h1 h2
    simp [check_postcode_by_country, h1, h2]

/-! ### C3 — confidence classification -/

/-- C3: `calculate_confidence` returns `High` exactly when the target
categories intersect the result's tags, or a non-empty keyword occurs
(case-insensitively) in the result's name or the search text, and the
result is not a partial match; `Medium` exactly when that fails but the
tags hold `establishment` or `point_of_interest`; `Low` otherwise — in
particular an empty keyword never satisfies the keyword condition, and
a result with neither a target tag, nor a generic tag, nor a keyword is
rated `Low`. -/
theorem c3_confidence_classification (r : PlaceResult) (q : String)
    (ts : List String) (kw : String) :
    (calculate_confidence r q ts kw = "High" ↔ specHighCond r q ts kw) ∧
    (calculate_confidence r q ts kw = "Medium" ↔
      (¬ specHighCond r q ts kw ∧ specGenericTag r)) ∧
    (calculate_confidence r q ts kw = "Low" ↔
      (¬ specHighCond r q ts kw ∧ ¬ specGenericTag r)) ∧
    calculate_confidence ⟨["lodging"], "Acme", false⟩ "Anywhere" [] "" = "Low" := by
  have hkw : (pyLower kw != "") = true ↔ kw ≠ "" := by
    simp [bne_iff_ne, pyLower_eq_empty_iff]
  set b1 : Bool := ((ts.any fun t => r.types.contains t) ||
      (if pyLower kw != "" then
        strContains (pyLower r.name) (pyLower kw) || strContains (pyLower q) (pyLower kw)
      else false)) && !r.partial_match with hb1
  set b2 : Bool := r.types.contains "establishment" ||
      r.types.contains "point_of_interest" with hb2
  have hA : b1 = true ↔ specHighCond r q ts kw := by
    rw [hb1]
    by_cases hk : kw = ""
    · subst hk
      simp [specHighCond, show pyLower "" = "" from rfl, List.any_eq_true,
        Bool.and_eq_true, Bool.not_eq_true']
    · have hkb : (pyLower kw != "") = true := hkw.mpr hk
      simp [specHighCond, hkb, hk, List.any_eq_true, Bool.and_eq_true,
        Bool.not_eq_true']
  have hB : b2 = true ↔ specGenericTag r := by
    rw [hb2]
    simp [specGenericTag]
  have hcalc : calculate_confidence r q ts kw =
      (if b1 = true then "High" else if b2 = true then "Medium" else "Low") := by
    rw [hb1, hb2]
    rfl
  rcases Bool.eq_false_or_eq_true b1 with h1 | h1
  · rw [hcalc, if_pos h1]
    exact ⟨iff_of_true rfl (hA.mp h1),
      iff_of_false (by decide) (fun hx => hx.1 (hA.mp h1)),
      iff_of_false (by decide) (fun hx => hx.1 (hA.mp h1)), by decide⟩
  · have h1n : ¬ b1 = true := by rw [h1]; simp
    have hna : ¬ specHighCond r q ts kw := fun ha => h1n (hA.mpr ha)
    rcases Bool.eq_false_or_eq_true b2 with h2 | h2
    · rw [hcalc, if_neg h1n, if_pos h2]
      exact ⟨iff_of_false (by decide) hna,
        iff_of_true rfl ⟨hna, hB.mp h2⟩,
        iff_of_false (by decide) (fun hx => hx.2 (hB.mp h2)), by decide⟩
    · have h2n : ¬ b2 = true := by rw [h2]; simp
      have hnb : ¬ specGenericTag r := fun hb => h2n (hB.mpr hb)
      rw [hcalc, if_neg h1n, if_neg h2n]
      exact ⟨iff_of_false (by decide) hna,
        iff_of_false (by decide) (fun hx => hnb hx.2),
        iff_of_true rfl ⟨hna, hnb⟩, by decide⟩

/-! ### C9 — the record cleaner is idempotent -/

/-- Deduplication only keeps rows of the input. -/
theorem mem_of_mem_dropDuplicates {V α : Type} [DecidableEq V]
    {seen : List (Option V)} {l : List (CRow V α)} {r : CRow V α}
    (h : r ∈ dropDuplicates seen l) : r ∈ l := by
  induction l generalizing seen with
  | nil => simp [dropDuplicates] at h
  | cons a t ih =>
    by_cases ha : a.name ∈ seen
    · exact List.mem_cons_of_mem _ (ih (by simpa [dropDuplicates, ha] using h))
    · have h' : r = a ∨ r ∈ dropDuplicates (a.name :: seen) t := by
        simpa [dropDuplicates, ha] using h
      rcases h' with h1 | h1
      · exact h1 ▸ List.mem_cons_self _ _
      · exact List.mem_cons_of_mem _ (ih h1)

/-- After deduplication no kept identifying value was previously seen,
and the kept identifying values are pairwise distinct. -/
theorem dropDuplicates_spec {V α : Type} [DecidableEq V] :
    ∀ (l : List (CRow V α)) (seen : List (Option V)),
      (∀ r ∈ dropDuplicates seen l, r.name ∉ seen) ∧
      ((dropDuplicates seen l).map (fun r => r.name)).Nodup
  | [], seen => by simp [dropDuplicates]
  | a :: t, seen => by
    by_cases ha : a.name ∈ seen
    · simpa [dropDuplicates, ha] using dropDuplicates_spec t seen
    · have ih := dropDuplicates_spec t (a.name :: seen)
      constructor
      · intro r hr
        rw [show dropDuplicates seen (a :: t) =
            a :: dropDuplicates (a.name :: seen) t by simp [dropDuplicates, ha]] at hr
        rcases List.mem_cons.mp hr with h1 | h1
        · exact h1 ▸ ha
        · exact fun hs => (ih.1 r h1) (List.mem_cons_of_mem _ hs)
      · rw [show dropDuplicates seen (a :: t) =
            a :: dropDuplicates (a.name :: seen) t by simp [dropDuplicates, ha],
          List.map_cons]
        refine List.nodup_cons.mpr ⟨?_, ih.2⟩
        intro hmem
        rcases List.mem_map.mp hmem with ⟨r, hr, hname⟩
        exact (ih.1 r hr) (by rw [hname]; exact List.mem_cons_self _ _)

/-- Deduplication is the identity on a list whose identifying values are
pairwise distinct and disjoint from the seen set. -/
theorem dropDuplicates_eq_self {V α : Type} [DecidableEq V] :
    ∀ (l : List (CRow V α)) (seen : List (Option V)),
      (l.map fun r => r.name).Nodup → (∀ r ∈ l, r.name ∉ seen) →
      dropDuplicates seen l = l
  | [], _, _, _ => rfl
  | a :: t, seen, hnd, hns => by
    have hnd' : (∀ x ∈ t, ¬ x.name = a.name) ∧ ((t.map fun r => r.name).Nodup) := by
      simpa using hnd
    have ha : a.name ∉ seen := hns a (List.mem_cons_self _ _)
    rw [show dropDuplicates seen (a :: t) =
        a :: dropDuplicates (a.name :: seen) t by simp [dropDuplicates, ha]]
    congr 1
    refine dropDuplicates_eq_self t (a.name :: seen) hnd'.2 ?_
    intro r hr hmem
    rcases List.mem_cons.mp hmem with h1 | h1
    · exact hnd'.1 r hr h1
    · exact hns r (List.mem_cons_of_mem _ hr) h1

/-- C9: the record cleaner is idempotent — applying
`process_golf_courses` to its own output returns exactly that output,
for every dataset (any identifying-cell type and row payload). -/
theorem c9_cleaner_idempotent {V α : Type} [DecidableEq V]
    (strOf : V → String) (df : List (CRow V α)) :
    process_golf_courses strOf (process_golf_courses strOf df) =
      process_golf_courses strOf df := by
  unfold process_golf_courses
  have hkeep : ∀ r ∈ dropDuplicates ([] : List (Option V)) (df.filter (keepRow strOf)),
      keepRow strOf r = true := by
    intro r hr
    exact (List.mem_filter.mp (mem_of_mem_dropDuplicates hr)).2
  rw [List.filter_eq_self.mpr hkeep]
  exact dropDuplicates_eq_self _ [] (dropDuplicates_spec _ []).2 (by simp)

/-! ### C4 and C7 — build_clean_address -/

/-- The `street_number` variable after the loop holds the text of the
last non-excluded `street_number` component (the default when there is
none). -/
theorem foldl_sortStep_street_number :
    ∀ (cs : List AddrComp) (acc : SortedParts),
      (cs.foldl sortStep acc).street_number =
        (streetNumberTexts cs).getLastD acc.street_number
  | [], _ => rfl
  | c :: cs, acc => by
    rw [List.foldl_cons, foldl_sortStep_street_number cs (sortStep acc c)]
    by_cases he : excludedComp c = true
    · rw [show (sortStep acc c).street_number = acc.street_number by simp [sortStep, he],
        show streetNumberTexts (c :: cs) = streetNumberTexts cs by
          simp [streetNumberTexts, List.filter_cons, he]]
    · by_cases hs : compHasType c "street_number" = true
      · rw [show (sortStep acc c).street_number = c.long_name by simp [sortStep, he, hs],
          show streetNumberTexts (c :: cs) = c.long_name :: streetNumberTexts cs by
            simp [streetNumberTexts, List.filter_cons, he, hs],
          List.getLastD_cons]
      · rw [show (sortStep acc c).street_number = acc.street_number by
            simp [sortStep, he, hs]
            by_cases hr : compHasType c "route" = true <;> simp [hr],
          show streetNumberTexts (c :: cs) = streetNumberTexts cs by
            simp [streetNumberTexts, List.filter_cons, he, hs]]

/-- The `route` variable after the loop holds the text of the last
non-excluded component reaching the `route` branch. -/
theorem foldl_sortStep_route :
    ∀ (cs : List AddrComp) (acc : SortedParts),
      (cs.foldl sortStep acc).route = (routeTexts cs).getLastD acc.route
  | [], _ => rfl
  | c :: cs, acc => by
    rw [List.foldl_cons, foldl_sortStep_route cs (sortStep acc c)]
    by_cases he : excludedComp c = true
    · rw [show (sortStep acc c).route = acc.route by simp [sortStep, he],
        show routeTexts (c :: cs) = routeTexts cs by
          simp [routeTexts, List.filter_cons, he]]
    · by_cases hs : compHasType c "street_number" = true
      · rw [show (sortStep acc c).route = acc.route by simp [sortStep, he, hs],
          show routeTexts (c :: cs) = routeTexts cs by
            simp [routeTexts, List.filter_cons, he, hs]]
      · by_cases hr : compHasType c "route" = true
        · rw [show (sortStep acc c).route = c.long_name by simp [sortStep, he, hs, hr],
            show routeTexts (c :: cs) = c.long_name :: routeTexts cs by
              simp [routeTexts, List.filter_cons, he, hs, hr],
            List.getLastD_cons]
        · rw [show (sortStep acc c).route = acc.route by simp [sortStep, he, hs, hr],
            show routeTexts (c :: cs) = routeTexts cs by
              simp [routeTexts, List.filter_cons, he, hs, hr]]

/-- The `other_parts` list after the loop: what was there before plus
the non-excluded, non-street, non-route texts in order. -/
theorem foldl_sortStep_other :
    ∀ (cs : List AddrComp) (acc : SortedParts),
      (cs.foldl sortStep acc).other_parts = acc.other_parts ++ otherTexts cs
  | [], acc => by simp [otherTexts]
  | c :: cs, acc => by
    rw [List.foldl_cons, foldl_sortStep_other cs (sortStep acc c)]
    by_cases he : excludedComp c = true
    · rw [show (sortStep acc c).other_parts = acc.other_parts by simp [sortStep, he],
        show otherTexts (c :: cs) = otherTexts cs by
          simp [otherTexts, List.filter_cons, he]]
    · by_cases hs : compHasType c "street_number" = true
      · rw [show (sortStep acc c).other_parts = acc.other_parts by simp [sortStep, he, hs],
          show otherTexts (c :: cs) = otherTexts cs by
            simp [otherTexts, List.filter_cons, he, hs]]
      · by_cases hr : compHasType c "route" = true
        · rw [show (sortStep acc c).other_parts = acc.other_parts by
              simp [sortStep, he, hs, hr],
            show otherTexts (c :: cs) = otherTexts cs by
              simp [otherTexts, List.filter_cons, he, hs, hr]]
        · rw [show (sortStep acc c).other_parts = acc.other_parts ++ [c.long_name] by
              simp [sortStep, he, hs, hr],
            show otherTexts (c :: cs) = c.long_name :: otherTexts cs by
              simp [otherTexts, List.filter_cons, he, hs, hr],
            List.append_assoc]
          rfl

/-- C4 counterexample: with two non-excluded `street_number` components
(`"10"` then `"20"`), `build_clean_address` uses the later text `"20"`,
not the first `"10"`; likewise the later of two `route` components. -/
theorem c4_first_occurrence_cex :
    build_clean_address [⟨"10", ["street_number"]⟩, ⟨"20", ["street_number"]⟩,
      ⟨"X", ["route"]⟩] = "20 X" ∧
    build_clean_address [⟨"10", ["street_number"]⟩, ⟨"20", ["street_number"]⟩,
      ⟨"X", ["route"]⟩] ≠ "10 X" ∧
    build_clean_address [⟨"1", ["street_number"]⟩, ⟨"A", ["route"]⟩,
      ⟨"B", ["route"]⟩] = "1 B" ∧
    build_clean_address [⟨"1", ["street_number"]⟩, ⟨"A", ["route"]⟩,
      ⟨"B", ["route"]⟩] ≠ "1 A" := by
  refine ⟨by decide, by decide, by decide, by decide⟩

/-- C4 amended: on duplicate non-excluded `street_number` (or `route`)
components, `build_clean_address` uses the text of the **last** such
component in list order — each assignment of the sorting loop
overwrites the previous one — and builds the address from the sorted
parts. -/
theorem c4_last_duplicate_wins (components : List AddrComp) :
    (sortComponents components).street_number =
      (streetNumberTexts components).getLastD "" ∧
    (sortComponents components).route = (routeTexts components).getLastD "" ∧
    build_clean_address components = String.intercalate ", "
      ((streetBlock (sortComponents components) ::
        (sortComponents components).other_parts).filter fun part => part != "") :=
  ⟨foldl_sortStep_street_number components ⟨"", "", []⟩,
   foldl_sortStep_route components ⟨"", "", []⟩, rfl⟩

/-- A text drawn through a filter at least as strong as non-exclusion is
a non-excluded component's text. -/
theorem mem_nonExcludedTexts_of_pred {f : AddrComp → Bool}
    (himp : ∀ c, f c = true → (!excludedComp c) = true)
    {cs : List AddrComp} {x : String}
    (hx : x ∈ (cs.filter f).map AddrComp.long_name) :
    x ∈ nonExcludedTexts cs := by
  rcases List.mem_map.mp hx with ⟨c, hc, rfl⟩
  have hc' := List.mem_filter.mp hc
  exact List.mem_map.mpr ⟨c, List.mem_filter.mpr ⟨hc'.1, himp c hc'.2⟩, rfl⟩

/-- A non-empty last text of such a filtered list is a non-excluded
component's text. -/
theorem getLastD_texts_mem {f : AddrComp → Bool}
    (himp : ∀ c, f c = true → (!excludedComp c) = true)
    (cs : List AddrComp)
    (h : ((cs.filter f).map AddrComp.long_name).getLastD "" ≠ "") :
    ((cs.filter f).map AddrComp.long_name).getLastD "" ∈ nonExcludedTexts cs := by
  have hne : (cs.filter f).map AddrComp.long_name ≠ [] := by
    intro h0
    rw [h0] at h
    exact h rfl
  exact mem_nonExcludedTexts_of_pred himp (getLastD_mem "" hne)

/-- C7 amended: every part of the string `build_clean_address` returns
is either the text of a non-excluded component (so of no component
tagged postal code, postal-code-suffix or country) or the street block
glued from two such texts; the literal postal code string can therefore
still appear in the output, but only where a non-excluded component
carries that same text. -/
theorem c7_parts_from_nonexcluded (components : List AddrComp) (p : String)
    (hp : p ∈ addressParts components) :
    p ∈ nonExcludedTexts components ∨
    ∃ sn rt, sn ∈ nonExcludedTexts components ∧ rt ∈ nonExcludedTexts components ∧
      (p = sn ++ " " ++ rt ∨ p = sn ++ ", " ++ rt) := by
  have hsn : (sortComponents components).street_number =
      (streetNumberTexts components).getLastD "" :=
    foldl_sortStep_street_number components ⟨"", "", []⟩
  have hrt : (sortComponents components).route =
      (routeTexts components).getLastD "" :=
    foldl_sortStep_route components ⟨"", "", []⟩
  have hot : (sortComponents components).other_parts = otherTexts components :=
    foldl_sortStep_other components ⟨"", "", []⟩
  have himpS : ∀ c, (!excludedComp c && compHasType c "street_number") = true →
      (!excludedComp c) = true := by
    intro c hc
    simp only [Bool.and_eq_true] at hc
    exact hc.1
  have himpR : ∀ c, (!excludedComp c && !compHasType c "street_number" &&
      compHasType c "route") = true → (!excludedComp c) = true := by
    intro c hc
    simp only [Bool.and_eq_true] at hc
    exact hc.1.1
  have himpO : ∀ c, (!excludedComp c && !compHasType c "street_number" &&
      !compHasType c "route") = true → (!excludedComp c) = true := by
    intro c hc
    simp only [Bool.and_eq_true] at hc
    exact hc.1.1
  have hp' := List.mem_filter.mp hp
  have hpne : p ≠ "" := bne_true_ne hp'.2
  rcases List.mem_cons.mp hp'.1 with hps | hpo
  · subst hps
    unfold streetBlock
    rw [hsn, hrt]
    by_cases h1 : ((streetNumberTexts components).getLastD "" != "" &&
        (routeTexts components).getLastD "" != "") = true
    · have h1' : ((streetNumberTexts components).getLastD "" != "") = true ∧
          ((routeTexts components).getLastD "" != "") = true := by
        simpa only [Bool.and_eq_true] using h1
      have hsm : (streetNumberTexts components).getLastD "" ∈ nonExcludedTexts components :=
        getLastD_texts_mem himpS components (bne_true_ne h1'.1)
      have hrm : (routeTexts components).getLastD "" ∈ nonExcludedTexts components :=
        getLastD_texts_mem himpR components (bne_true_ne h1'.2)
      rw [if_pos h1]
      by_cases h2 : ((streetNumberTexts components).getLastD "").toList.any Char.isDigit = true
      · rw [if_pos h2]
        exact Or.inr ⟨_, _, hsm, hrm, Or.inl rfl⟩
      · rw [if_neg h2]
        exact Or.inr ⟨_, _, hsm, hrm, Or.inr rfl⟩
    · rw [if_neg h1]
      by_cases h2 : ((streetNumberTexts components).getLastD "" != "") = true
      · rw [if_pos h2]
        exact Or.inl (getLastD_texts_mem himpS components (bne_true_ne h2))
      · rw [if_neg h2]
        refine Or.inl (getLastD_texts_mem himpR components ?_)
        intro h0
        apply hpne
        unfold streetBlock
        rw [hsn, hrt, if_neg h1, if_neg h2]
        exact h0
  · rw [hot] at hpo
    exact Or.inl (mem_nonExcludedTexts_of_pred himpO (by simpa [otherTexts] using hpo))

/-- C7 witness: the amended claim at a concrete component list. -/
theorem c7_parts_from_nonexcluded_witness :
    "London" ∈ nonExcludedTexts
      [⟨"10", ["street_number"]⟩, ⟨"London", ["locality"]⟩] ∨
    ∃ sn rt, sn ∈ nonExcludedTexts
        [⟨"10", ["street_number"]⟩, ⟨"London", ["locality"]⟩] ∧
      rt ∈ nonExcludedTexts
        [⟨"10", ["street_number"]⟩, ⟨"London", ["locality"]⟩] ∧
      ("London" = sn ++ " " ++ rt ∨ "London" = sn ++ ", " ++ rt) :=
  c7_parts_from_nonexcluded [⟨"10", ["street_number"]⟩, ⟨"London", ["locality"]⟩]
    "London" (by decide)

/-- C7 counterexample: a locality component carrying the same text as
the postal-code component makes the output contain (here: equal) the
literal input postal code string. -/
theorem c7_postcode_in_output_cex :
    build_clean_address [⟨"AB1 2CD", ["postal_code"]⟩, ⟨"AB1 2CD", ["locality"]⟩]
      = "AB1 2CD" ∧
    strContains (build_clean_address
      [⟨"AB1 2CD", ["postal_code"]⟩, ⟨"AB1 2CD", ["locality"]⟩]) "AB1 2CD" = true := by
  refine ⟨by decide, by decide⟩

/-! ### C1 — error entries per failing row -/

/-- C1 (code bug): a row whose validation yields two field errors
contributes **two** entries to the error set — `errors.append` sits
inside the `for i, error in enumerate(e.errors(), 1)` loop — the first
entry carrying only the first numbered line; the claim's single entry
(with the full joined text) is only the last of them. -/
theorem c1_error_entries_duplicated :
    (validate_golf_courses valTwoErrors [vrowLinks]).2 =
      [⟨vrowLinks, 2, "1) abc: bad type"⟩,
       ⟨vrowLinks, 2, "1) abc: bad type.\n2) -5: out of range"⟩] ∧
    (validate_golf_courses valTwoErrors [vrowLinks]).2.length = 2 := by
  refine ⟨by decide, by decide⟩

/-! ### C2 — what the orchestrator returns -/

/-- C2 counterexample: with one pre-filled row (`rowA`) and one
enrichable row (`rowB`), the returned dataset is `[rowB]` alone — the
function reassigns `df = df[mask].copy()` and returns that subset, so
the pre-filled row does not appear in the output at all. -/
theorem c2_prefilled_rows_dropped_cex :
    (enrich_golf_course_addresses [rowA, rowB] apiZero).2 = .ok [rowB] ∧
    rowA ∉ [rowB] := by
  refine ⟨by decide, by decide⟩

/-- `frameEq` is reflexive. -/
theorem frameEq_refl (r : Row) : frameEq r r := ⟨rfl, rfl⟩

/-- `frameEq` composes. -/
theorem frameEq_trans {a b c : Row} (h1 : frameEq a b) (h2 : frameEq b c) :
    frameEq a c :=
  ⟨h1.1.trans h2.1, h1.2.trans h2.2⟩

/-- Pointwise `frameEq` of a list with itself. -/
theorem forall2_frameEq_refl (l : List Row) : List.Forall₂ frameEq l l :=
  List.forall₂_same.mpr fun x _ => frameEq_refl x

/-- The details step only writes the five enrichment cells: whatever row
it hands back (completed or after a caught error) is `frameEq` to the
row it started from. -/
theorem detailsStep_frame (row2 : Row) (cn : String) (flt : Option String)
    (api : RowApi) (r : Row)
    (h : (∃ e, detailsStep row2 cn flt api = .caught r e) ∨
      detailsStep row2 cn flt api = .done r) :
    frameEq r row2 := by
  rcases hd : api.details with e' | d
  · simp only [detailsStep, hd] at h
    rcases h with ⟨e, he⟩ | hdn
    · cases he
      exact ⟨rfl, rfl⟩
    · cases hdn
  · simp only [detailsStep, hd] at h
    by_cases hst : (d.status == "OK") = true
    · simp only [hst, if_true] at h
      rcases hinj : injectLocType (d.result.getD emptyDetailsResult) flt with e2 | full2
      · simp only [hinj] at h
        rcases h with ⟨e, he⟩ | hdn
        · cases he
        · cases hdn
      · simp only [hinj] at h
        rcases h with ⟨e, he⟩ | hdn
        · cases he
        · cases hdn
          exact ⟨rfl, rfl⟩
    · simp only [hst, if_false] at h
      rcases h with ⟨e, he⟩ | hdn
      · cases he
      · cases hdn
        exact ⟨rfl, rfl⟩

/-- The whole try block only writes the five enrichment cells. -/
theorem rowStep_frame (row : Row) (cn : String) (api : RowApi) (r : Row)
    (h : (∃ e, rowStep row cn api = .caught r e) ∨ rowStep row cn api = .done r) :
    frameEq r row := by
  rcases hf : api.find with e' | fr
  · simp only [rowStep, hf] at h
    rcases h with ⟨e, he⟩ | hdn
    · cases he
      exact ⟨rfl, rfl⟩
    · cases hdn
  · simp only [rowStep, hf] at h
    rcases hc : fr.candidates with _ | ⟨c, cs⟩
    · simp only [hc] at h
      rcases h with ⟨e, he⟩ | hdn
      · cases he
      · cases hdn
        exact ⟨rfl, rfl⟩
    · by_cases hst : (fr.status == "OK") = true
      · simp only [hc, hst] at h
        rcases hg : c.geometry with _ | g
        · simp only [hg] at h
          by_cases hpid : truthyS c.place_id = true
          · rw [if_pos hpid] at h
            exact frameEq_trans (detailsStep_frame _ cn _ api r h) ⟨rfl, rfl⟩
          · rw [if_neg hpid] at h
            rcases h with ⟨e, he⟩ | hdn
            · cases he
            · cases hdn
              exact ⟨rfl, rfl⟩
        · simp only [hg] at h
          rcases hl : g.location with _ | loc
          · simp only [hl] at h
            rcases h with ⟨e, he⟩ | hdn
            · cases he
            · cases hdn
          · simp only [hl] at h
            by_cases hpid : truthyS c.place_id = true
            · rw [if_pos hpid] at h
              exact frameEq_trans (detailsStep_frame _ cn _ api r h) ⟨rfl, rfl⟩
            · rw [if_neg hpid] at h
              rcases h with ⟨e, he⟩ | hdn
              · cases he
              · cases hdn
                exact ⟨rfl, rfl⟩
      · simp only [hc, hst] at h
        rcases h with ⟨e, he⟩ | hdn
        · cases he
        · cases hdn
          exact ⟨rfl, rfl⟩

/-- What the loop leaves in the working subset: position by position,
each final row is `frameEq` to the row that position held when the loop
started (provided no uncaught exception ended it). -/
theorem loopAux_frame (api : Nat → RowApi) :
    ∀ (pending : List Row) (count : Nat) (prev base : List Row)
      (writes : List (List Row)),
      List.Forall₂ frameEq prev base →
      (loopAux api count prev writes pending).exn = none →
      List.Forall₂ frameEq (loopAux api count prev writes pending).df
        (base.reverse ++ pending)
  | [], _, prev, base, writes, hpb, _ => by
    simp only [loopAux, List.append_nil]
    exact List.forall₂_reverse_iff.mpr hpb
  | row :: rest, count, prev, base, writes, hpb, hex => by
    by_cases hskip : skipRow row = true
    · rw [show loopAux api count prev writes (row :: rest) =
          loopAux api (count + 1) (row :: prev) writes rest from by
        simp [loopAux, hskip]] at hex ⊢
      have := loopAux_frame api rest (count + 1) (row :: prev) (row :: base) writes
        (List.Forall₂.cons (frameEq_refl row) hpb) hex
      simpa [List.reverse_cons, List.append_assoc] using this
    · rcases hstep : rowStep row (row.courseName.getD "") (api count) with r' | ⟨r', e⟩ | e
      · rw [show loopAux api count prev writes (row :: rest) =
            loopAux api (count + 1) (r' :: prev)
              (if (count + 1) % 10 == 0 then (prev.reverse ++ r' :: rest) :: writes
               else writes) rest from by
          simp [loopAux, hskip, hstep]] at hex ⊢
        have := loopAux_frame api rest (count + 1) (r' :: prev) (row :: base) _
          (List.Forall₂.cons (rowStep_frame row _ (api count) r' (Or.inr hstep)) hpb) hex
        simpa [List.reverse_cons, List.append_assoc] using this
      · by_cases hmsg : strContains e.msg "API key" = true
        · rw [show loopAux api count prev writes (row :: rest) =
              ⟨prev.reverse ++ r' :: rest, writes.reverse, none⟩ from by
            simp [loopAux, hskip, hstep, hmsg]]
          exact List.rel_append (List.forall₂_reverse_iff.mpr hpb)
            (List.Forall₂.cons
              (rowStep_frame row _ (api count) r' (Or.inl ⟨e, hstep⟩))
              (forall2_frameEq_refl rest))
        · rw [show loopAux api count prev writes (row :: rest) =
              loopAux api (count + 1) (r' :: prev) writes rest from by
            simp [loopAux, hskip, hstep, hmsg]] at hex ⊢
          have := loopAux_frame api rest (count + 1) (r' :: prev) (row :: base) writes
            (List.Forall₂.cons
              (rowStep_frame row _ (api count) r' (Or.inl ⟨e, hstep⟩)) hpb) hex
          simpa [List.reverse_cons, List.append_assoc] using this
      · rw [show (loopAux api count prev writes (row :: rest)).exn = some e from by
            simp [loopAux, hskip, hstep]] at hex
        exact Option.noConfusion hex

/-- C2 amended: when at least one row needs enrichment and the function
returns, the returned dataset corresponds row by row — same count, same
order — to the sub-dataset of rows that needed enrichment (the mask),
and each returned row can differ from its input row only in the
Address, Latitude, Longitude, Post Code and Confidence cells; rows
whose address was already filled are dropped, not passed through. -/
theorem c2_enriched_subset_frame (df : List Row) (api : Nat → RowApi)
    (fin : List Row) (hne : df.filter needsEnrichment ≠ [])
    (hok : (enrich_golf_course_addresses df api).2 = .ok fin) :
    List.Forall₂ frameEq fin (df.filter needsEnrichment) := by
  have hc : ((df.filter needsEnrichment).length == 0) = false := by
    have h0 : (df.filter needsEnrichment).length ≠ 0 :=
      fun h0 => hne (List.length_eq_zero.mp h0)
    simpa using h0
  simp only [enrich_golf_course_addresses, hc, Bool.false_eq_true, if_false] at hok
  rcases hex : (loopAux api 0 [] [] (df.filter needsEnrichment)).exn with _ | e
  · simp only [hex] at hok
    have hfin : (loopAux api 0 [] [] (df.filter needsEnrichment)).df = fin := by
      simpa using hok
    have hframe := loopAux_frame api (df.filter needsEnrichment) 0 [] [] []
      List.Forall₂.nil hex
    rw [hfin] at hframe
    simpa using hframe
  · simp only [hex] at hok
    simp at hok

/-- C2 witness: the amended claim at the two-row fixture. -/
theorem c2_enriched_subset_frame_witness :
    List.Forall₂ frameEq [rowB] ([rowA, rowB].filter needsEnrichment) :=
  c2_enriched_subset_frame [rowA, rowB] apiZero [rowB] (by decide) (by decide)

/-! ### C5 — the precision-tag injection -/

/-- C5 counterexample: a precision tag already present in the details
result (`ROOFTOP`) is overwritten by the tag captured from the
find-candidate call (`GEOMETRIC_CENTER`) — it is not left unchanged. -/
theorem c5_inject_overwrites_cex :
    injectLocType ⟨[], some ⟨some "ROOFTOP"⟩, "Club", [], false⟩
      (some "GEOMETRIC_CENTER") =
      .ok ⟨[], some ⟨some "GEOMETRIC_CENTER"⟩, "Club", [], false⟩ ∧
    ("ROOFTOP" : String) ≠ "GEOMETRIC_CENTER" := by
  refine ⟨by decide, by decide⟩

/-- C5 amended: whenever a (truthy) precision tag was captured in step
3, it is written into the details result unconditionally before
confidence is computed, overwriting any precision tag already present;
the details result is left unchanged only when no tag was captured, and
a captured tag with no geometry in the details result raises a
`KeyError`. -/
theorem c5_inject_unconditional (full : DetailsResult) (g : DetailsGeometry)
    (s : String) (hg : full.geometry = some g) (hs : s ≠ "") :
    injectLocType full (some s) =
      .ok { full with geometry := some ⟨some s⟩ } ∧
    (∀ found, truthyS found = false → injectLocType full found = .ok full) ∧
    injectLocType { full with geometry := none } (some s) =
      .error (.keyError "geometry") := by
  have hts : truthyS (some s) = true := by
    simpa [truthyS] using ne_bne_true hs
  refine ⟨?_, ?_, ?_⟩
  · cases g with
    | mk lt0 => simp [injectLocType, hts, hg]
  · intro found hf
    simp [injectLocType, hf]
  · simp [injectLocType, hts]

/-- C5 witness: the amended claim at the `ROOFTOP`/`GEOMETRIC_CENTER`
fixture. -/
theorem c5_inject_unconditional_witness :
    injectLocType ⟨[], some ⟨some "ROOFTOP"⟩, "Club", [], false⟩
      (some "GEOMETRIC_CENTER") =
      .ok { (⟨[], some ⟨some "ROOFTOP"⟩, "Club", [], false⟩ : DetailsResult) with
        geometry := some ⟨some "GEOMETRIC_CENTER"⟩ } ∧
    (∀ found, truthyS found = false →
      injectLocType ⟨[], some ⟨some "ROOFTOP"⟩, "Club", [], false⟩ found =
        .ok ⟨[], some ⟨some "ROOFTOP"⟩, "Club", [], false⟩) ∧
    injectLocType { (⟨[], some ⟨some "ROOFTOP"⟩, "Club", [], false⟩ : DetailsResult)
        with geometry := none } (some "GEOMETRIC_CENTER") =
      .error (.keyError "geometry") :=
  c5_inject_unconditional ⟨[], some ⟨some "ROOFTOP"⟩, "Club", [], false⟩
    ⟨some "ROOFTOP"⟩ "GEOMETRIC_CENTER" rfl (by decide)

/-! ### C8 — error handling in the enrichment loop -/

/-- C8 counterexample: the break condition tests only the message, not
the exception class — a **transport** error whose text contains
`'API key'` also aborts the whole loop, so the second enrichable row
stays untouched even though its own lookups (`apiOk`) would have
enriched it. -/
theorem c8_transport_credential_breaks_cex :
    (apiCredT 0).find = .error ⟨.transport, "timeout validating API key"⟩ ∧
    strContains "timeout validating API key" "API key" = true ∧
    enrich_golf_course_addresses [rowC, rowD] apiCredT =
      ([[rowC, rowD]], .ok [rowC, rowD]) ∧
    (enrich_golf_course_addresses [rowD] apiOk).2 ≠ .ok [rowD] := by
  refine ⟨by decide, by decide, by decide, by decide⟩

/-- C8 amended: a caught API **or transport** error whose text contains
`'API key'` ends the loop at once, leaving every remaining row exactly
as it was; a caught error without that text leaves only its own row
(partially) unenriched and the loop continues with the next row; and
whenever the function returns (normal completion or early break), the
last checkpoint write is the returned dataset — the final persist after
the loop. -/
theorem c8_error_handling (api : Nat → RowApi) :
    (∀ count prev writes row rest r e,
      skipRow row = false →
      rowStep row (row.courseName.getD "") (api count) = .caught r e →
      strContains e.msg "API key" = true →
      loopAux api count prev writes (row :: rest) =
        ⟨prev.reverse ++ r :: rest, writes.reverse, none⟩) ∧
    (∀ count prev writes row rest r e,
      skipRow row = false →
      rowStep row (row.courseName.getD "") (api count) = .caught r e →
      strContains e.msg "API key" = false →
      loopAux api count prev writes (row :: rest) =
        loopAux api (count + 1) (r :: prev) writes rest) ∧
    (∀ df ws fin, df.filter needsEnrichment ≠ [] →
      enrich_golf_course_addresses df api = (ws, .ok fin) →
      ws.getLast? = some fin) := by
  refine ⟨?_, ?_, ?_⟩
  · intro count prev writes row rest r e hskip hstep hmsg
    simp [loopAux, hskip, hstep, hmsg]
  · intro count prev writes row rest r e hskip hstep hmsg
    simp [loopAux, hskip, hstep, hmsg]
  · intro df ws fin hne hok
    have hc : ((df.filter needsEnrichment).length == 0) = false := by
      have h0 : (df.filter needsEnrichment).length ≠ 0 :=
        fun h0 => hne (List.length_eq_zero.mp h0)
      simpa using h0
    simp only [enrich_golf_course_addresses, hc, Bool.false_eq_true, if_false] at hok
    rcases hex : (loopAux api 0 [] [] (df.filter needsEnrichment)).exn with _ | e
    · simp only [hex] at hok
      have hws : ws = (loopAux api 0 [] [] (df.filter needsEnrichment)).writes ++
          [(loopAux api 0 [] [] (df.filter needsEnrichment)).df] :=
        (congrArg Prod.fst hok).symm
      have hfin : (loopAux api 0 [] [] (df.filter needsEnrichment)).df = fin := by
        simpa using congrArg Prod.snd hok
      rw [hws, List.getLast?_concat, hfin]
    · simp only [hex] at hok
      have := congrArg Prod.snd hok
      simp at this

/-- C8 witness: the break clause of the amended claim at the transport
fixture. -/
theorem c8_error_handling_witness :
    loopAux apiCredT 0 [] [] [rowC, rowD] = ⟨[rowC, rowD], [], none⟩ := by
  have h := (c8_error_handling apiCredT).1 0 [] [] rowC [rowD] rowC
    ⟨.transport, "timeout validating API key"⟩ (by decide) (by decide) (by decide)
  simpa using h

/-! ### C10 — uncaught exceptions propagate without the final write -/

/-- C10: only API and transport errors are caught per row; when the
first processed row's details response is `OK` but lacks a geometry
while a precision tag was captured in step 1, the unguarded
`full_result['geometry']` subscript raises a `KeyError` that propagates
out of `enrich_golf_course_addresses` uncaught — and no checkpoint is
written after the loop (here: no checkpoint at all). -/
theorem c10_uncaught_keyerror_aborts (df : List Row) (api : Nat → RowApi)
    (row : Row) (rest : List Row) (pid : String) (fa : Option String)
    (loc : Location) (lt : String) (dres : DetailsResult)
    (hsub : df.filter needsEnrichment = row :: rest)
    (hskip : skipRow row = false)
    (hapi : api 0 = ⟨.ok ⟨"OK", [⟨some pid, fa, some ⟨some loc, some lt⟩⟩]⟩,
      .ok ⟨"OK", some dres⟩⟩)
    (hpid : pid ≠ "") (hlt : lt ≠ "") (hg : dres.geometry = none) :
    enrich_golf_course_addresses df api = ([], .error (.keyError "geometry")) := by
  have hstep : rowStep row (row.courseName.getD "") (api 0) =
      .uncaught (.keyError "geometry") := by
    simp [rowStep, hapi, detailsStep, injectLocType, truthyS, ne_bne_true hpid,
      ne_bne_true hlt, hg]
  have hloop : loopAux api 0 [] [] (row :: rest) =
      ⟨[], [], some (.keyError "geometry")⟩ := by
    simp [loopAux, hskip, hstep]
  have hc : ((df.filter needsEnrichment).length == 0) = false := by
    rw [hsub]
    simp
  simp [enrich_golf_course_addresses, hc, hsub, hloop]

/-- C10 witness: the geometry `KeyError` scenario at the concrete
fixture. -/
theorem c10_uncaught_keyerror_aborts_witness :
    enrich_golf_course_addresses [rowC] apiNoGeom =
      ([], .error (.keyError "geometry")) :=
  c10_uncaught_keyerror_aborts [rowC] apiNoGeom rowC [] "pid1"
    (some "Formatted Addr") ⟨51, 0⟩ "ROOFTOP" dresNoGeom (by decide) (by decide)
    (by decide) (by decide) (by decide) (by decide)

end GolfSpec
